import Mathlib

/-!
Verification of the issue-bot repository: a shallow embedding in Lean 4 of
the listing pipeline, the message-collection window, the content validator,
the image preprocessing step, the sequential issue-creation loop and the
preview review window, together with theorems settling the specified
behavioural claims.
-/

namespace IssueBot

/-! ### Listing data model (github utilities)

The tracker board query returns, per item, an optional single-select status
value (a name together with the option identifier) and the linked issue
content.  The status field carries a list of named options.
-/

/-- One option of the single-select status field (id and name). -/
structure FieldOption where
  id : String
  name : String
deriving DecidableEq, Repr

/-- The status custom field: its options, as returned by the field query. -/
structure StatusField where
  options : List FieldOption
deriving DecidableEq, Repr

/-- The value of the status field on one item: option name and option id.
A missing value (item without a status) is modelled as Option.none at the
use sites. -/
structure StatusValue where
  name : String
  optionId : String
deriving DecidableEq, Repr

/-- Linked issue content of a project item. -/
structure IssueContent where
  number : Nat
  title : String
  url : String
  body : String
  assignees : List String
deriving DecidableEq, Repr

/-- A project item: an identifier, an optional status value, and the
linked issue content. -/
structure ProjectItem where
  id : String
  fieldValueByName : Option StatusValue
  content : IssueContent
deriving DecidableEq, Repr

/-- JavaScript truthiness of the possibly-missing status name: an absent
value and the empty string are falsy, every other string is truthy. -/
def truthyStr : Option String → Bool
  | none => false
  | some s => s ≠ ""

/-- The filter predicate of processProjectItems, embedded from
`status && status !== doneOption?.name`: the item survives when its status
name is present and truthy, and is not strictly equal to the optional Done
name (strict equality of a string with an absent name is false, so when no
Done option exists every truthy status survives). -/
def keepItem (doneName : Option String) (item : ProjectItem) : Bool :=
  let status := item.fieldValueByName.map (·.name)
  truthyStr status && !(status == doneName)

/-- The comparator passed to the sort in processProjectItems: an item whose
status option id strictly equals the optional Backlog option id compares
first.  Strict equality of two absent values is true, matching the
JavaScript comparison of two undefined values. -/
def compareItems (backlogId : Option String) (a b : ProjectItem) : Int :=
  if (a.fieldValueByName.map (·.optionId)) == backlogId then -1
  else if (b.fieldValueByName.map (·.optionId)) == backlogId then 1
  else 0

/-- Stable insertion of one element with a JavaScript-style comparator:
the incoming (earlier) element is placed before the first element it does
not compare strictly after. -/
def sortInsert (c : α → α → Int) (a : α) : List α → List α
  | [] => [a]
  | y :: ys => if c a y ≤ 0 then a :: y :: ys else y :: sortInsert c a ys

/-- A stable sort with a JavaScript-style comparator, modelling
Array.prototype.sort (stable since ES2019): elements are inserted from the
left, so elements the comparator treats as equal keep input order. -/
def jsStableSort (c : α → α → Int) : List α → List α
  | [] => []
  | a :: l => sortInsert c a (jsStableSort c l)

/-- Embedding of processProjectItems: resolve the Backlog and Done options
by name, filter with keepItem, then sort with compareItems. -/
def processProjectItems (items : List ProjectItem) (statusField : StatusField) :
    List ProjectItem :=
  let backlogOption := statusField.options.find? (fun o => o.name == "Backlog")
  let doneOption := statusField.options.find? (fun o => o.name == "Done")
  jsStableSort (compareItems (backlogOption.map (·.id)))
    (items.filter (keepItem (doneOption.map (·.name))))

/-- Whether the comparator treats an item as a Backlog item: its status
option id strictly equals the optional Backlog id. -/
def isBacklogItem (backlogId : Option String) (item : ProjectItem) : Bool :=
  (item.fieldValueByName.map (·.optionId)) == backlogId

/-- The Done option name resolved from a status field, as
processProjectItems resolves it. -/
def doneNameOf (statusField : StatusField) : Option String :=
  (statusField.options.find? (fun o => o.name == "Done")).map (·.name)

/-- The Backlog option id resolved from a status field, as
processProjectItems resolves it. -/
def backlogIdOf (statusField : StatusField) : Option String :=
  (statusField.options.find? (fun o => o.name == "Backlog")).map (·.id)

/-! ### Sort lemmas -/

theorem sortInsert_of_all_le (c : α → α → Int) (a : α) (l : List α)
    (h : ∀ y ∈ l, c a y ≤ 0) : sortInsert c a l = a :: l := by
  cases l with
  | nil => rfl
  | cons y ys =>
      simp only [sortInsert, if_pos (h y (List.mem_cons_self y ys))]

theorem sortInsert_append_of_all_gt (c : α → α → Int) (a : α) (F N : List α)
    (h : ∀ y ∈ F, ¬ c a y ≤ 0) :
    sortInsert c a (F ++ N) = F ++ sortInsert c a N := by
  induction F with
  | nil => rfl
  | cons y ys ih =>
      simp only [List.cons_append, sortInsert,
        if_neg (h y (List.mem_cons_self y ys))]
      have hih := ih (fun z hz => h z (List.mem_cons_of_mem y hz))
      simpa using hih

/-- A stable sort with the two-valued comparator induced by a predicate
(p-elements strictly first) partitions the list: all p-elements in input
order, then all others in input order. -/
theorem jsStableSort_filter (p : α → Bool) (l : List α) :
    jsStableSort (fun a b => if p a then (-1 : Int) else if p b then 1 else 0) l
      = l.filter p ++ l.filter (fun x => !(p x)) := by
  induction l with
  | nil => rfl
  | cons a l ih =>
      by_cases ha : p a = true
      · simp only [jsStableSort, ih, List.filter_cons, ha, if_pos,
          List.cons_append]
        rw [sortInsert_of_all_le]
        · simp
        · intro y _
          simp [ha]
      · have ha' : p a = false := by
          cases hpa : p a
          · rfl
          · exact absurd hpa ha
        simp only [jsStableSort, ih, List.filter_cons, ha', Bool.not_false,
          if_neg, Bool.false_eq_true, not_false_eq_true, if_true]
        rw [sortInsert_append_of_all_gt]
        · rw [sortInsert_of_all_le]
          intro y hy
          have hpy : p y = false := by
            have := List.of_mem_filter hy
            simpa using this
          simp [ha', hpy]
        · intro y hy
          have hpy : p y = true := List.of_mem_filter hy
          simp [ha', hpy]

theorem mem_jsStableSort_filter (p : α → Bool) (l : List α) (x : α) :
    x ∈ jsStableSort (fun a b => if p a then (-1 : Int) else if p b then 1 else 0) l
      ↔ x ∈ l := by
  rw [jsStableSort_filter]
  simp only [List.mem_append, List.mem_filter]
  constructor
  · rintro (⟨hx, _⟩ | ⟨hx, _⟩) <;> exact hx
  · intro hx
    cases hpx : p x
    · exact Or.inr ⟨hx, by simp [hpx]⟩
    · exact Or.inl ⟨hx, by simp [hpx]⟩

theorem compareItems_eq_pred (backlogId : Option String) :
    compareItems backlogId = fun a b =>
      if isBacklogItem backlogId a then (-1 : Int)
      else if isBacklogItem backlogId b then 1 else 0 := rfl

/-- Claim C8: after the listing filter, every item whose status option is
Backlog is ordered before every item whose status option is not Backlog,
and within each of the two groups the stable input order is kept — the
output is exactly the Backlog-status survivors in input order followed by
the remaining survivors in input order. -/
theorem processProjectItems_backlog_first (items : List ProjectItem)
    (sf : StatusField) :
    processProjectItems items sf =
      (items.filter (keepItem (doneNameOf sf))).filter
          (isBacklogItem (backlogIdOf sf))
        ++ (items.filter (keepItem (doneNameOf sf))).filter
          (fun i => !(isBacklogItem (backlogIdOf sf) i)) := by
  show jsStableSort (compareItems (backlogIdOf sf))
      (items.filter (keepItem (doneNameOf sf))) = _
  rw [compareItems_eq_pred]
  exact jsStableSort_filter (isBacklogItem (backlogIdOf sf)) _

/-- Claim C1, amended: an item is in the listing output exactly when it is
among the inputs and has a present, non-empty status name different from
the Done option name; in particular an item lacking a status value is
excluded, not kept. -/
theorem mem_processProjectItems (items : List ProjectItem) (sf : StatusField)
    (item : ProjectItem) :
    item ∈ processProjectItems items sf ↔
      item ∈ items ∧ ∃ fv, item.fieldValueByName = some fv ∧ fv.name ≠ "" ∧
        some fv.name ≠ doneNameOf sf := by
  show item ∈ jsStableSort (compareItems (backlogIdOf sf))
      (items.filter (keepItem (doneNameOf sf))) ↔ _
  rw [compareItems_eq_pred,
    mem_jsStableSort_filter (isBacklogItem (backlogIdOf sf)),
    List.mem_filter]
  constructor
  · rintro ⟨hmem, hkeep⟩
    refine ⟨hmem, ?_⟩
    unfold keepItem at hkeep
    cases hfv : item.fieldValueByName with
    | none => rw [hfv] at hkeep; simp [truthyStr] at hkeep
    | some fv =>
        rw [hfv] at hkeep
        simp only [Option.map_some', Bool.and_eq_true, Bool.not_eq_true',
          beq_eq_false_iff_ne, ne_eq] at hkeep
        refine ⟨fv, rfl, ?_, ?_⟩
        · simpa [truthyStr] using hkeep.1
        · exact hkeep.2
  · rintro ⟨hmem, fv, hfv, hname, hdone⟩
    refine ⟨hmem, ?_⟩
    unfold keepItem
    rw [hfv]
    simp only [Option.map_some', Bool.and_eq_true, Bool.not_eq_true',
      beq_eq_false_iff_ne, ne_eq]
    exact ⟨by simpa [truthyStr] using hname, hdone⟩

/-- A concrete status field with Backlog, In Progress and Done options. -/
def sfC : StatusField :=
  ⟨[⟨"b1", "Backlog"⟩, ⟨"p1", "In Progress"⟩, ⟨"d1", "Done"⟩]⟩

/-- A concrete project item that lacks a status value. -/
def itemNoStatus : ProjectItem :=
  ⟨"itemA", none, ⟨7, "No status yet", "urlA", "bodyA", []⟩⟩

/-- Claim C1, counterexample: an item lacking a status value is not kept in
the listing output — the filter drops it, so the output is empty. -/
theorem listing_missing_status_dropped :
    itemNoStatus.fieldValueByName = none ∧
      processProjectItems [itemNoStatus] sfC = [] :=
  ⟨rfl, rfl⟩

/-! ### Collection window (message collector of the create-issue flow)

The message collector is opened with the filter rejecting bot authors and
a ten minute bound; the collect handler re-checks the bot flag, stops on
the done keyword, appends each attachment url to the image list and then
appends non-empty message text to the text list.
-/

/-- An inbound attachment: display name and url. -/
structure Attachment where
  name : String
  url : String
deriving DecidableEq, Repr

/-- An inbound chat message, with the author bot flag, the author id, the
text content and the attachments. -/
structure Message where
  authorIsBot : Bool
  authorId : String
  content : String
  attachments : List Attachment
deriving DecidableEq, Repr

/-- The collected asset bundle of one session: ordered text fragments and
ordered image references. -/
structure Assets where
  text : List String
  images : List String
deriving DecidableEq, Repr

/-- ASCII lowercasing of message content, modelling the JavaScript
toLowerCase call on the plain-ASCII done keyword check. -/
def lowerAscii (s : String) : String :=
  ⟨s.data.map Char.toLower⟩

/-- One step of the collection window: the collector filter drops bot
messages; the handler stops on the lowercased done keyword, appends every
attachment url to the images, and appends non-empty content to the text.
The Bool result records whether the collector was stopped by this
message.  Note the filter and the handler test only the bot flag: the
author identity is never compared with the invoking user. -/
def collectStep (assets : Assets) (m : Message) : Assets × Bool :=
  if m.authorIsBot then (assets, false)
  else if lowerAscii m.content == "!done" then (assets, true)
  else
    let withImages : Assets :=
      { assets with images := assets.images ++ m.attachments.map (·.url) }
    let withText : Assets :=
      if m.content ≠ "" then
        { withImages with text := withImages.text ++ [m.content] }
      else withImages
    (withText, false)

/-- A concrete non-bot message from a user who is not the invoking user. -/
def msgFromOtherUser : Message :=
  ⟨false, "bystander", "extra detail", []⟩

/-- Claim C2, counterexample: a non-bot message from a user other than the
invoking user (owner id distinct from the author id) is appended to the
bundle — its text lands in the text fragments, so the bundle changes. -/
theorem collect_nonowner_message_appended :
    msgFromOtherUser.authorIsBot = false ∧
      msgFromOtherUser.authorId ≠ "session-owner" ∧
      (collectStep ⟨[], []⟩ msgFromOtherUser).1.text = ["extra detail"] :=
  ⟨rfl, by decide, rfl⟩

/-- Claim C2, amended: during an OPEN collection window every bot-authored
message leaves the collected asset bundle unchanged and does not stop the
collector; messages from other users are not excluded, since the collector
filter and handler test only the bot flag. -/
theorem collectStep_bot_unchanged (assets : Assets) (m : Message)
    (h : m.authorIsBot = true) : collectStep assets m = (assets, false) := by
  unfold collectStep
  rw [h]
  rfl

/-- Claim C2, witness for the amended theorem at a concrete bot message. -/
theorem collectStep_bot_unchanged_witness :
    (⟨true, "the-bot", "ping", [⟨"a.png", "urlP"⟩]⟩ : Message).authorIsBot = true ∧
      collectStep ⟨["frag"], ["imgX"]⟩ ⟨true, "the-bot", "ping", [⟨"a.png", "urlP"⟩]⟩
        = (⟨["frag"], ["imgX"]⟩, false) :=
  ⟨rfl, collectStep_bot_unchanged ⟨["frag"], ["imgX"]⟩
    ⟨true, "the-bot", "ping", [⟨"a.png", "urlP"⟩]⟩ rfl⟩

/-! ### Sequential issue creation (createIssues)

The creation loop walks the generated issues in order; for each it issues
one tracker creation call whose body is the generated body followed by one
markdown image link per collected image reference; a successful response
is appended to the created list, a failed call rethrows immediately, so
later issues are never attempted and earlier creations stand.  The
external tracker is modelled as an oracle mapping the index of the call in
the run to its outcome.
-/

/-- A schema-validated generated issue. -/
structure GeneratedIssue where
  title : String
  body : String
  labels : List String
deriving DecidableEq, Repr

/-- A tracker response for a created issue. -/
structure CreatedIssue where
  number : Nat
  html_url : String
  title : String
deriving DecidableEq, Repr

/-- The payload of one tracker creation call. -/
structure CreateReq where
  title : String
  body : String
  labels : List String
deriving DecidableEq, Repr

/-- The markdown image block appended to every issue body: one image link
per collected image reference, joined by newlines. -/
def imageMarkdown (images : List String) : String :=
  String.intercalate "\n" (images.map (fun url => "![image](" ++ url ++ ")"))

/-- The body sent to the tracker for one issue: the generated body, a
blank line, then the image markdown block. -/
def issueBodyWithImages (issue : GeneratedIssue) (images : List String) : String :=
  issue.body ++ "\n\n" ++ imageMarkdown images

/-- The creation payload for one issue given the session image list. -/
def createReqOf (images : List String) (issue : GeneratedIssue) : CreateReq :=
  ⟨issue.title, issueBodyWithImages issue images, issue.labels⟩

/-- The observable outcome of one run of the creation loop: the payloads of
the calls actually made, the responses of the successful calls, and the
propagated error of the failed call when there is one. -/
structure CreateRun where
  calls : List CreateReq
  created : List CreatedIssue
  failure : Option String
deriving DecidableEq, Repr

/-- The creation loop, with the call counter threaded so the oracle can
answer each call in sequence: on success the loop continues with the rest,
on failure it stops at once with the error. -/
def createIssuesAux (resp : Nat → Except String CreatedIssue)
    (images : List String) : Nat → List GeneratedIssue → CreateRun
  | _, [] => ⟨[], [], none⟩
  | k, issue :: rest =>
    let req := createReqOf images issue
    match resp k with
    | .ok d =>
        let r := createIssuesAux resp images (k + 1) rest
        ⟨req :: r.calls, d :: r.created, r.failure⟩
    | .error e => ⟨[req], [], some e⟩

/-- Embedding of createIssues: run the loop from call index zero. -/
def createIssuesRun (resp : Nat → Except String CreatedIssue)
    (issues : List GeneratedIssue) (images : List String) : CreateRun :=
  createIssuesAux resp images 0 issues

theorem createIssuesAux_spec (resp : Nat → Except String CreatedIssue)
    (w : Nat → CreatedIssue) (images : List String) (e : String) :
    ∀ (issues : List GeneratedIssue) (k off : Nat), k < issues.length →
      (∀ i, i < k → resp (off + i) = .ok (w (off + i))) →
      resp (off + k) = .error e →
      createIssuesAux resp images off issues =
        ⟨(issues.take (k + 1)).map (createReqOf images),
          (List.range k).map (fun i => w (off + i)), some e⟩ := by
  intro issues
  induction issues with
  | nil => intro k off hk _ _; exact absurd hk (Nat.not_lt_zero k)
  | cons issue rest ih =>
      intro k off hk hok hfail
      cases k with
      | zero =>
          have hoff : resp off = .error e := by simpa using hfail
          simp [createIssuesAux, hoff]
      | succ k' =>
          have h0 : resp off = .ok (w off) := by
            have := hok 0 (Nat.succ_pos k')
            simpa using this
          have hk' : k' < rest.length := Nat.lt_of_succ_lt_succ hk
          have hok' : ∀ i, i < k' → resp (off + 1 + i) = .ok (w (off + 1 + i)) := by
            intro i hi
            have := hok (i + 1) (Nat.succ_lt_succ hi)
            have harith : off + (i + 1) = off + 1 + i := by omega
            rw [harith] at this
            exact this
          have hfail' : resp (off + 1 + k') = .error e := by
            have harith : off + (k' + 1) = off + 1 + k' := by omega
            rw [harith] at hfail
            exact hfail
          have hrest := ih k' (off + 1) hk' hok' hfail'
          simp only [createIssuesAux, h0, hrest, CreateRun.mk.injEq,
            List.take_succ_cons, List.map_cons, true_and, and_true]
          rw [List.range_succ_eq_map]
          simp only [List.map_cons, List.map_map, Nat.add_zero,
            List.cons.injEq, true_and]
          apply List.map_congr_left
          intro i _
          simp only [Function.comp_apply]
          congr 1
          omega

/-- Claim C5: if the first k calls of the creation loop succeed and the
call for the following issue fails, then exactly the first k issues were
created, the error propagates as the outcome of the run, and no later
issue is attempted — the calls made are exactly those for the first k+1
issues. -/
theorem createIssues_stops_at_failure (resp : Nat → Except String CreatedIssue)
    (w : Nat → CreatedIssue) (issues : List GeneratedIssue)
    (images : List String) (k : Nat) (e : String)
    (hk : k < issues.length)
    (hok : ∀ i, i < k → resp i = .ok (w i))
    (hfail : resp k = .error e) :
    createIssuesRun resp issues images =
      ⟨(issues.take (k + 1)).map (createReqOf images),
        (List.range k).map w, some e⟩ := by
  have h := createIssuesAux_spec resp w images e issues k 0
    hk (by intro i hi; simpa using hok i hi) (by simpa using hfail)
  simpa using h

/-- An oracle whose second call fails and whose other calls succeed. -/
def respFailSecond : Nat → Except String CreatedIssue := fun k =>
  if k == 1 then .error "boom" else .ok ⟨k, "urlOf", "titleOf"⟩

/-- The successful responses of the oracle respFailSecond. -/
def wFailSecond : Nat → CreatedIssue := fun k => ⟨k, "urlOf", "titleOf"⟩

/-- A concrete three issue batch. -/
def issuesThree : List GeneratedIssue :=
  [⟨"first title ok", "first body", ["bug"]⟩,
   ⟨"second title ok", "second body", []⟩,
   ⟨"third title ok", "third body", ["enhancement"]⟩]

/-- Claim C5, witness: a three issue batch whose second creation call
fails results in exactly one created issue, two calls made, and the error
propagated. -/
theorem createIssues_stops_at_failure_witness :
    1 < issuesThree.length ∧
      respFailSecond 1 = .error "boom" ∧
      createIssuesRun respFailSecond issuesThree ["imgA"] =
        ⟨(issuesThree.take 2).map (createReqOf ["imgA"]),
          (List.range 1).map wFailSecond, some "boom"⟩ :=
  ⟨by decide, rfl,
    createIssues_stops_at_failure respFailSecond wFailSecond issuesThree
      ["imgA"] 1 "boom" (by decide)
      (fun i hi => by
        have h0 : i = 0 := Nat.lt_one_iff.mp hi
        subst h0
        rfl)
      rfl⟩

theorem createIssuesAux_calls_of_success (resp : Nat → Except String CreatedIssue)
    (images : List String) :
    ∀ (issues : List GeneratedIssue) (off : Nat),
      (createIssuesAux resp images off issues).failure = none →
      (createIssuesAux resp images off issues).calls =
        issues.map (createReqOf images) := by
  intro issues
  induction issues with
  | nil => intro off _; rfl
  | cons issue rest ih =>
      intro off h
      cases hr : resp off with
      | ok d =>
          simp only [createIssuesAux, hr, List.map_cons] at h ⊢
          rw [ih (off + 1) h]
      | error e =>
          simp [createIssuesAux, hr] at h

/-- Claim C10: in a fully committed batch the loop makes one call per
generated issue, in input order, and the body of every call is that issue
body followed by a blank line and one markdown image link for each
collected image reference of the session, in collection order — the same
full image list for every issue of the batch. -/
theorem createIssues_bodies_append_all_images
    (resp : Nat → Except String CreatedIssue)
    (issues : List GeneratedIssue) (images : List String)
    (h : (createIssuesRun resp issues images).failure = none) :
    (createIssuesRun resp issues images).calls =
      issues.map (fun issue =>
        { title := issue.title,
          body := issue.body ++ "\n\n" ++
            String.intercalate "\n"
              (images.map (fun url => "![image](" ++ url ++ ")")),
          labels := issue.labels }) :=
  createIssuesAux_calls_of_success resp images issues 0 h

/-- An oracle that answers every creation call successfully. -/
def respAllOk : Nat → Except String CreatedIssue := fun k =>
  .ok ⟨k + 10, "urlOk", "titleOk"⟩

/-- Claim C10, witness: with two issues and two collected images, every
call body carries the full two-image markdown block. -/
theorem createIssues_bodies_append_all_images_witness :
    (createIssuesRun respAllOk
        [⟨"t one", "b one", []⟩, ⟨"t two", "b two", ["bug"]⟩]
        ["imgA", "imgB"]).failure = none ∧
      (createIssuesRun respAllOk
          [⟨"t one", "b one", []⟩, ⟨"t two", "b two", ["bug"]⟩]
          ["imgA", "imgB"]).calls =
        [⟨"t one", "b one\n\n![image](imgA)\n![image](imgB)", []⟩,
          ⟨"t two", "b two\n\n![image](imgA)\n![image](imgB)", ["bug"]⟩] :=
  ⟨rfl, by
    have h := createIssues_bodies_append_all_images respAllOk
      [⟨"t one", "b one", []⟩, ⟨"t two", "b two", ["bug"]⟩]
      ["imgA", "imgB"] rfl
    rw [h]
    rfl⟩

/-! ### Preview review window

In preview mode the flow builds one action row named buttons with the
custom ids confirm, edit and cancel, but the preview message is sent with
the other row, whose custom ids are confirm underscore issues and cancel
underscore issues; the button collector admits only presses from the
invoking user, the switch handles confirm underscore issues, edit and
cancel underscore issues, and the end handler clears the components.
-/

/-- The custom ids of the three-button row built for the review step.
This row is constructed but never attached to any message. -/
def reviewButtonIds : List String := ["confirm", "edit", "cancel"]

/-- The custom ids of the row actually attached to the preview message. -/
def previewRowIds : List String := ["confirm_issues", "cancel_issues"]

/-- The component rows of the preview message as sent. -/
def previewMessageComponents : List (List String) := [previewRowIds]

/-- The custom ids the button switch has cases for. -/
def handledButtonIds : List String := ["confirm_issues", "edit", "cancel_issues"]

/-- Claim C3, evidence: the preview message presents exactly two decisions
(confirm underscore issues and cancel underscore issues); the edit case of
the switch is unreachable because no presented button carries the edit id,
although a three-button confirm, edit, cancel row is built and an edit
handler exists. -/
theorem preview_presents_two_decisions :
    previewMessageComponents.flatten = ["confirm_issues", "cancel_issues"] ∧
      previewMessageComponents.flatten.length = 2 ∧
      reviewButtonIds = ["confirm", "edit", "cancel"] ∧
      "edit" ∈ handledButtonIds ∧
      "edit" ∉ previewMessageComponents.flatten := by
  refine ⟨rfl, rfl, rfl, ?_, ?_⟩ <;> decide

/-- A button press: the pressing user and the custom id of the button. -/
structure Press where
  userId : String
  customId : String
deriving DecidableEq, Repr

/-- The observable outcome of the review window: whether the session
committed, the tracker creation calls made, and whether the end handler
disabled the buttons. -/
structure ReviewOutcome where
  committed : Bool
  trackerCalls : List CreateReq
  buttonsDisabled : Bool
deriving DecidableEq, Repr

/-- The review window over a finite sequence of button presses (an empty
remainder means the five minute window expired): the collector filter
admits only presses by the invoking user; a confirm press stops the
collector and runs the sequential creation loop, a cancel press stops it
with nothing created, an edit press or an unknown id leaves the collector
running; in every terminating case the end handler disables the buttons. -/
def runReview (resp : Nat → Except String CreatedIssue) (ownerId : String)
    (issues : List GeneratedIssue) (images : List String) :
    List Press → ReviewOutcome
  | [] => ⟨false, [], true⟩
  | p :: rest =>
    if p.userId == ownerId then
      if p.customId == "confirm_issues" then
        let r := createIssuesRun resp issues images
        ⟨r.failure.isNone, r.calls, true⟩
      else if p.customId == "cancel_issues" then
        ⟨false, [], true⟩
      else
        runReview resp ownerId issues images rest
    else
      runReview resp ownerId issues images rest

/-- Claim C7: a review window that expires without any button press from
the invoking user never commits — no tracker creation call is made and the
buttons are disabled. -/
theorem review_timeout_not_committed (resp : Nat → Except String CreatedIssue)
    (ownerId : String) (issues : List GeneratedIssue) (images : List String)
    (presses : List Press)
    (h : ∀ p ∈ presses, p.userId ≠ ownerId) :
    runReview resp ownerId issues images presses = ⟨false, [], true⟩ := by
  induction presses with
  | nil => rfl
  | cons p rest ih =>
      have hp : (p.userId == ownerId) = false := by
        have := h p (List.mem_cons_self p rest)
        simpa using this
      simp only [runReview, hp, Bool.false_eq_true, if_false]
      exact ih (fun q hq => h q (List.mem_cons_of_mem p hq))

/-- Claim C7, witness: a window seeing only a press from another user (and
then expiring) ends uncommitted with no tracker call and disabled buttons. -/
theorem review_timeout_not_committed_witness :
    (∀ p ∈ [(⟨"mallory", "confirm_issues"⟩ : Press)], p.userId ≠ "owner") ∧
      runReview respAllOk "owner" issuesThree ["imgA"]
          [⟨"mallory", "confirm_issues"⟩] = ⟨false, [], true⟩ :=
  ⟨by decide,
    review_timeout_not_committed respAllOk "owner" issuesThree ["imgA"]
      [⟨"mallory", "confirm_issues"⟩] (by decide)⟩

/-! ### Image preprocessing (processImages and fetchImageAsBase64)

Every collected image reference is fetched; a non-success response or a
rejected fetch throws inside the per-image mapper, where it is caught, a
skip warning is sent to the conversation, and null is returned; the null
results are filtered out, so generation receives exactly the successfully
fetched images.  The network is an oracle from url to an optional
response; the base64 text of the fetched body is carried in the response
record, since the encoding itself is an injected pure function of bytes.
-/

/-- A fetch response: the ok flag, the HTTP status, the content type and
the base64 text of the body. -/
structure FetchResp where
  ok : Bool
  status : Nat
  contentType : String
  bodyB64 : String
deriving DecidableEq, Repr

/-- Embedding of fetchImageAsBase64: a rejected fetch (no response)
propagates an error; a response that is not ok throws the HTTP status;
otherwise the data url is assembled from the content type and the base64
body. -/
def fetchImageAsBase64 (world : String → Option FetchResp) (url : String) :
    Except String String :=
  match world url with
  | none => .error "fetch rejected"
  | some r =>
      if !r.ok then .error ("HTTP " ++ toString r.status)
      else .ok ("data:" ++ r.contentType ++ ";base64," ++ r.bodyB64)

/-- One prompt image part: the fixed part type and the data url. -/
structure ImageContent where
  partType : String
  url : String
deriving DecidableEq, Repr

/-- Embedding of processImages: map every url through the fetch, turning a
success into an image part and a failure into a skip warning for the
conversation, then filter the failures out of the parts. -/
def processImages (world : String → Option FetchResp) :
    List String → List ImageContent × List String
  | [] => ([], [])
  | url :: rest =>
    let r := processImages world rest
    match fetchImageAsBase64 world url with
    | .ok d => (⟨"image_url", d⟩ :: r.1, r.2)
    | .error e => (r.1, ("⚠️ Skipping image: " ++ e) :: r.2)

/-- Claim C6: generation receives exactly the successfully fetched images,
each failing reference is dropped individually with one warning surfaced
to the conversation, and a failing reference never aborts the batch — the
result is total and equals the filtered successes paired with one warning
per failure. -/
theorem processImages_isolates_failures (world : String → Option FetchResp)
    (images : List String) :
    (processImages world images).1 =
        images.filterMap (fun url =>
          match fetchImageAsBase64 world url with
          | .ok d => some ⟨"image_url", d⟩
          | .error _ => none) ∧
      (processImages world images).2 =
        images.filterMap (fun url =>
          match fetchImageAsBase64 world url with
          | .ok _ => none
          | .error e => some ("⚠️ Skipping image: " ++ e)) := by
  induction images with
  | nil => exact ⟨rfl, rfl⟩
  | cons url rest ih =>
      cases hf : fetchImageAsBase64 world url with
      | ok d =>
          simp only [processImages, hf, List.filterMap_cons]
          exact ⟨by rw [ih.1], by rw [ih.2]⟩
      | error e =>
          simp only [processImages, hf, List.filterMap_cons]
          exact ⟨by rw [ih.1], by rw [ih.2]⟩

/-! ### Content validator (IssueSchema and validateAIResponse)

The schema is an array of objects with a title of at least ten characters,
a body of at least one hundred characters, and an optional labels array
(each label between two and twenty characters, missing array defaulting to
empty).  safeParse aggregates every failing path into one error value; on
any failure no element of the batch is returned.
-/

/-- A parsed issue candidate as found in the issues array of the parsed
JSON document: each field may be absent. -/
structure IssueCandidate where
  title : Option String
  body : Option String
  labels : Option (List String)
deriving DecidableEq, Repr

/-- One aggregated validation error: the path of the failing field and the
message. -/
structure ValError where
  path : List String
  message : String
deriving DecidableEq, Repr

/-- The label errors of one candidate: one error per label shorter than
two or longer than twenty characters, with its path. -/
def labelErrorsAux (i : Nat) : Nat → List String → List ValError
  | _, [] => []
  | j, s :: rest =>
    (if s.length < 2 then
      [⟨[toString i, "labels", toString j],
        "String must contain at least 2 character(s)"⟩]
    else if 20 < s.length then
      [⟨[toString i, "labels", toString j],
        "String must contain at most 20 character(s)"⟩]
    else []) ++ labelErrorsAux i (j + 1) rest

/-- The title errors of one candidate: a missing title is required, a
present title must reach ten characters. -/
def titleErrors (i : Nat) : Option String → List ValError
  | none => [⟨[toString i, "title"], "Required"⟩]
  | some t =>
      if t.length < 10 then
        [⟨[toString i, "title"],
          "String must contain at least 10 character(s)"⟩]
      else []

/-- The body errors of one candidate: a missing body is required, a
present body must reach one hundred characters. -/
def bodyErrors (i : Nat) : Option String → List ValError
  | none => [⟨[toString i, "body"], "Required"⟩]
  | some b =>
      if b.length < 100 then
        [⟨[toString i, "body"],
          "String must contain at least 100 character(s)"⟩]
      else []

/-- The labels errors of one candidate: a missing labels array defaults to
empty and contributes nothing. -/
def labelsErrors (i : Nat) : Option (List String) → List ValError
  | none => []
  | some ls => labelErrorsAux i 0 ls

/-- The errors of one candidate at its index: the title, body and labels
errors concatenated. -/
def candidateErrors (i : Nat) (c : IssueCandidate) : List ValError :=
  titleErrors i c.title ++ bodyErrors i c.body ++ labelsErrors i c.labels

/-- All aggregated errors of a candidate array, indexed from zero. -/
def schemaErrorsAux : Nat → List IssueCandidate → List ValError
  | _, [] => []
  | i, c :: rest => candidateErrors i c ++ schemaErrorsAux (i + 1) rest

/-- The trusted issue built from a fully valid candidate: present title and
body, labels defaulted to the empty list when absent. -/
def candidateToIssue (c : IssueCandidate) : GeneratedIssue :=
  ⟨c.title.getD "", c.body.getD "", c.labels.getD []⟩

/-- Embedding of the IssueSchema safeParse as used by validateAIResponse:
when the aggregated error list is empty every candidate is returned as a
trusted issue, otherwise the single aggregate error is thrown and no issue
is trusted. -/
def issueSchemaSafeParse (cands : List IssueCandidate) :
    Except (List ValError) (List GeneratedIssue) :=
  let errs := schemaErrorsAux 0 cands
  if errs.isEmpty then .ok (cands.map candidateToIssue) else .error errs

/-- Title conformance: a present title of length at least ten. -/
def titleOk : Option String → Bool
  | none => false
  | some t => 10 ≤ t.length

/-- Body conformance: a present body of length at least one hundred. -/
def bodyOk : Option String → Bool
  | none => false
  | some b => 100 ≤ b.length

/-- Labels conformance after the empty default: every label between two
and twenty characters. -/
def labelsOk (ls : Option (List String)) : Bool :=
  (ls.getD []).all (fun s => 2 ≤ s.length && s.length ≤ 20)

/-- Schema conformance of one candidate. -/
def validIssueCandidate (c : IssueCandidate) : Bool :=
  titleOk c.title && bodyOk c.body && labelsOk c.labels

theorem labelErrorsAux_eq_nil_iff (i : Nat) :
    ∀ (j : Nat) (ls : List String),
      labelErrorsAux i j ls = [] ↔
        ls.all (fun s => 2 ≤ s.length && s.length ≤ 20) = true := by
  intro j ls
  induction ls generalizing j with
  | nil => simp [labelErrorsAux]
  | cons s rest ih =>
      simp only [labelErrorsAux, List.append_eq_nil, List.all_cons,
        Bool.and_eq_true, ih (j + 1)]
      constructor
      · rintro ⟨hhead, htail⟩
        refine ⟨?_, htail⟩
        by_cases h2 : s.length < 2
        · rw [if_pos h2] at hhead; cases hhead
        · by_cases h20 : 20 < s.length
          · rw [if_neg h2, if_pos h20] at hhead; cases hhead
          · simp only [decide_eq_true_eq, Bool.and_eq_true]
            omega
      · rintro ⟨hs, htail⟩
        refine ⟨?_, htail⟩
        simp only [Bool.and_eq_true, decide_eq_true_eq] at hs
        rw [if_neg (by omega), if_neg (by omega)]

theorem titleErrors_eq_nil_iff (i : Nat) (t : Option String) :
    titleErrors i t = [] ↔ titleOk t = true := by
  cases t with
  | none => simp [titleErrors, titleOk]
  | some t =>
      by_cases h : t.length < 10
      · simp only [titleErrors, titleOk, if_pos h, decide_eq_true_eq]
        constructor
        · intro hx; cases hx
        · intro hx; omega
      · simp only [titleErrors, titleOk, if_neg h, decide_eq_true_eq]
        constructor
        · intro _; omega
        · intro _; trivial

theorem bodyErrors_eq_nil_iff (i : Nat) (b : Option String) :
    bodyErrors i b = [] ↔ bodyOk b = true := by
  cases b with
  | none => simp [bodyErrors, bodyOk]
  | some b =>
      by_cases h : b.length < 100
      · simp only [bodyErrors, bodyOk, if_pos h, decide_eq_true_eq]
        constructor
        · intro hx; cases hx
        · intro hx; omega
      · simp only [bodyErrors, bodyOk, if_neg h, decide_eq_true_eq]
        constructor
        · intro _; omega
        · intro _; trivial

theorem labelsErrors_eq_nil_iff (i : Nat) (ls : Option (List String)) :
    labelsErrors i ls = [] ↔ labelsOk ls = true := by
  cases ls with
  | none => simp [labelsErrors, labelsOk]
  | some ls =>
      simpa [labelsErrors, labelsOk] using labelErrorsAux_eq_nil_iff i 0 ls

theorem candidateErrors_eq_nil_iff (i : Nat) (c : IssueCandidate) :
    candidateErrors i c = [] ↔ validIssueCandidate c = true := by
  unfold candidateErrors validIssueCandidate
  rw [List.append_eq_nil, List.append_eq_nil, titleErrors_eq_nil_iff,
    bodyErrors_eq_nil_iff, labelsErrors_eq_nil_iff, Bool.and_eq_true,
    Bool.and_eq_true]

theorem schemaErrorsAux_eq_nil_iff :
    ∀ (i : Nat) (cands : List IssueCandidate),
      schemaErrorsAux i cands = [] ↔
        ∀ c ∈ cands, validIssueCandidate c = true := by
  intro i cands
  induction cands generalizing i with
  | nil => simp [schemaErrorsAux]
  | cons c rest ih =>
      simp only [schemaErrorsAux, List.append_eq_nil, candidateErrors_eq_nil_iff,
        ih (i + 1), List.mem_cons]
      constructor
      · rintro ⟨hc, hrest⟩ x hx
        rcases hx with rfl | hx
        · exact hc
        · exact hrest x hx
      · intro h
        exact ⟨h c (Or.inl rfl), fun x hx => h x (Or.inr hx)⟩

/-- Claim C4: as soon as the parsed issue array contains one candidate
violating the schema, validation fails with a single aggregate error and
yields zero trusted issues — the batch is never partially accepted. -/
theorem validation_rejects_whole_batch (cands : List IssueCandidate)
    (h : ∃ c ∈ cands, validIssueCandidate c = false) :
    ∃ errs, issueSchemaSafeParse cands = .error errs ∧ errs ≠ [] ∧
      ∀ issues, issueSchemaSafeParse cands ≠ .ok issues := by
  have hne : schemaErrorsAux 0 cands ≠ [] := by
    intro hnil
    rw [schemaErrorsAux_eq_nil_iff] at hnil
    obtain ⟨c, hc, hbad⟩ := h
    rw [hnil c hc] at hbad
    cases hbad
  refine ⟨schemaErrorsAux 0 cands, ?_, hne, ?_⟩
  · unfold issueSchemaSafeParse
    rw [if_neg (by simpa [List.isEmpty_iff] using hne)]
  · intro issues hok
    unfold issueSchemaSafeParse at hok
    rw [if_neg (by simpa [List.isEmpty_iff] using hne)] at hok
    cases hok

/-- A body of exactly one hundred characters. -/
def bodyHundred : String := ⟨List.replicate 100 'b'⟩

/-- A well-formed candidate. -/
def candGood : IssueCandidate :=
  ⟨some "a long enough title", some bodyHundred, none⟩

/-- A candidate whose title has nine characters, one below the minimum. -/
def candBadTitle : IssueCandidate :=
  ⟨some "too short", some bodyHundred, some ["bug"]⟩

/-- Claim C4, witness: a batch with one well-formed candidate and one
nine-character-title candidate fails as a whole. -/
theorem validation_rejects_whole_batch_witness :
    (∃ c ∈ [candGood, candBadTitle], validIssueCandidate c = false) ∧
      ∃ errs, issueSchemaSafeParse [candGood, candBadTitle] = .error errs ∧
        errs ≠ [] ∧
        ∀ issues, issueSchemaSafeParse [candGood, candBadTitle] ≠ .ok issues :=
  ⟨⟨candBadTitle, by decide, by decide⟩,
    validation_rejects_whole_batch [candGood, candBadTitle]
      ⟨candBadTitle, by decide, by decide⟩⟩

/-- The candidate shape of a trusted issue, used to feed the validator its
own output: every field present, labels as returned. -/
def issueToCandidate (g : GeneratedIssue) : IssueCandidate :=
  ⟨some g.title, some g.body, some g.labels⟩

theorem candidateToIssue_issueToCandidate (g : GeneratedIssue) :
    candidateToIssue (issueToCandidate g) = g := by
  cases g
  rfl

theorem valid_issueToCandidate_of_valid (c : IssueCandidate)
    (h : validIssueCandidate c = true) :
    validIssueCandidate (issueToCandidate (candidateToIssue c)) = true := by
  obtain ⟨t, b, ls⟩ := c
  simp only [validIssueCandidate, Bool.and_eq_true] at h
  obtain ⟨⟨ht, hb⟩, hls⟩ := h
  cases t with
  | none => simp [titleOk] at ht
  | some t =>
  cases b with
  | none => simp [bodyOk] at hb
  | some b =>
  cases ls with
  | none =>
      simp only [issueToCandidate, candidateToIssue, Option.getD_some,
        Option.getD_none, validIssueCandidate, Bool.and_eq_true]
      exact ⟨⟨ht, hb⟩, rfl⟩
  | some ls =>
      simp only [issueToCandidate, candidateToIssue, Option.getD_some,
        validIssueCandidate, Bool.and_eq_true]
      exact ⟨⟨ht, hb⟩, hls⟩

/-- Claim C9: the validator is idempotent — whenever it accepts a raw
candidate array and returns a trusted batch, re-running it on that batch
(each issue fed back with all fields present) accepts again and returns
the structurally equal batch. -/
theorem validator_idempotent (cands : List IssueCandidate)
    (issues : List GeneratedIssue)
    (h : issueSchemaSafeParse cands = .ok issues) :
    issueSchemaSafeParse (issues.map issueToCandidate) = .ok issues := by
  unfold issueSchemaSafeParse at h
  by_cases hemp : (schemaErrorsAux 0 cands).isEmpty = true
  · rw [if_pos hemp] at h
    have hissues : issues = cands.map candidateToIssue := by
      cases h
      rfl
    have hvalid : ∀ c ∈ cands, validIssueCandidate c = true := by
      rw [← schemaErrorsAux_eq_nil_iff 0]
      simpa [List.isEmpty_iff] using hemp
    have hvalid' : ∀ c ∈ issues.map issueToCandidate,
        validIssueCandidate c = true := by
      intro x hx
      rw [hissues] at hx
      simp only [List.map_map, List.mem_map, Function.comp_apply] at hx
      obtain ⟨c, hc, rfl⟩ := hx
      exact valid_issueToCandidate_of_valid c (hvalid c hc)
    unfold issueSchemaSafeParse
    rw [if_pos (by
      rw [List.isEmpty_iff, schemaErrorsAux_eq_nil_iff]
      exact hvalid')]
    congr 1
    rw [List.map_map]
    have : ∀ g ∈ issues, (candidateToIssue ∘ issueToCandidate) g = g := by
      intro g _
      exact candidateToIssue_issueToCandidate g
    rw [List.map_congr_left this]
    simp
  · rw [if_neg hemp] at h
    cases h

/-- Claim C9, witness: a concrete accepted two-candidate batch re-validates
to the structurally equal batch. -/
theorem validator_idempotent_witness :
    issueSchemaSafeParse [candGood,
        ⟨some "another fine title", some bodyHundred, some ["bug", "ui"]⟩] =
      .ok [⟨"a long enough title", bodyHundred, []⟩,
        ⟨"another fine title", bodyHundred, ["bug", "ui"]⟩] ∧
      issueSchemaSafeParse
          ([(⟨"a long enough title", bodyHundred, []⟩ : GeneratedIssue),
            ⟨"another fine title", bodyHundred, ["bug", "ui"]⟩].map
            issueToCandidate) =
        .ok [⟨"a long enough title", bodyHundred, []⟩,
          ⟨"another fine title", bodyHundred, ["bug", "ui"]⟩] :=
  ⟨rfl,
    validator_idempotent
      [candGood, ⟨some "another fine title", some bodyHundred, some ["bug", "ui"]⟩]
      [⟨"a long enough title", bodyHundred, []⟩,
        ⟨"another fine title", bodyHundred, ["bug", "ui"]⟩]
      rfl⟩

end IssueBot
